import Mathlib

/-!
Verification of the pow5 proof-of-work core (pow5-rs/src/lib.rs).

Byte buffers are modelled as List Nat, each element a byte value below 256;
32-bit machine words are Nat values reduced modulo 2 ^ 32 at every operation
that the machine performs modulo 2 ^ 32. Fallible Rust functions returning
Result are modelled as Except String.
-/

namespace Pow5

/-- Modelled from the spec: part of the hash primitive (section 4.1), whose
source file pow5-rs/src/blake3_reference.rs is not available. Rotate a
32-bit word right by n bits. -/
def rotr32 (x n : Nat) : Nat := (x >>> n) ||| ((x <<< (32 - n)) % 4294967296)

/-- Modelled from the spec: part of the hash primitive. The quarter-round
mixing function of the tree hash, on four state words and two message
words, all arithmetic modulo 2 ^ 32. -/
def gMix (a b c d mx my : Nat) : Nat × Nat × Nat × Nat :=
  let a := (a + b + mx) % 4294967296
  let d := rotr32 (d ^^^ a) 16
  let c := (c + d) % 4294967296
  let b := rotr32 (b ^^^ c) 12
  let a := (a + b + my) % 4294967296
  let d := rotr32 (d ^^^ a) 8
  let c := (c + d) % 4294967296
  let b := rotr32 (b ^^^ c) 7
  (a, b, c, d)

/-- Modelled from the spec: part of the hash primitive. One full round:
the mixing function applied to the four columns and then the four
diagonals of the 16-word state, with sixteen message words. -/
def roundFn (s0 s1 s2 s3 s4 s5 s6 s7 s8 s9 s10 s11 s12 s13 s14 s15
    m0 m1 m2 m3 m4 m5 m6 m7 m8 m9 m10 m11 m12 m13 m14 m15 : Nat) :
    List Nat :=
  let (s0, s4, s8, s12) := gMix s0 s4 s8 s12 m0 m1
  let (s1, s5, s9, s13) := gMix s1 s5 s9 s13 m2 m3
  let (s2, s6, s10, s14) := gMix s2 s6 s10 s14 m4 m5
  let (s3, s7, s11, s15) := gMix s3 s7 s11 s15 m6 m7
  let (s0, s5, s10, s15) := gMix s0 s5 s10 s15 m8 m9
  let (s1, s6, s11, s12) := gMix s1 s6 s11 s12 m10 m11
  let (s2, s7, s8, s13) := gMix s2 s7 s8 s13 m12 m13
  let (s3, s4, s9, s14) := gMix s3 s4 s9 s14 m14 m15
  [s0, s1, s2, s3, s4, s5, s6, s7, s8, s9, s10, s11, s12, s13, s14, s15]

/-- Modelled from the spec: part of the hash primitive. One round applied
to a state list, selecting the sixteen message words in the order given
by the round schedule indices. -/
def roundL (st m : List Nat)
    (i0 i1 i2 i3 i4 i5 i6 i7 i8 i9 i10 i11 i12 i13 i14 i15 : Nat) : List Nat :=
  roundFn (st.getD 0 0) (st.getD 1 0) (st.getD 2 0) (st.getD 3 0)
    (st.getD 4 0) (st.getD 5 0) (st.getD 6 0) (st.getD 7 0)
    (st.getD 8 0) (st.getD 9 0) (st.getD 10 0) (st.getD 11 0)
    (st.getD 12 0) (st.getD 13 0) (st.getD 14 0) (st.getD 15 0)
    (m.getD i0 0) (m.getD i1 0) (m.getD i2 0) (m.getD i3 0)
    (m.getD i4 0) (m.getD i5 0) (m.getD i6 0) (m.getD i7 0)
    (m.getD i8 0) (m.getD i9 0) (m.getD i10 0) (m.getD i11 0)
    (m.getD i12 0) (m.getD i13 0) (m.getD i14 0) (m.getD i15 0)

/-- Modelled from the spec: part of the hash primitive. The seven-round
compression function; returns the eight chaining-value words. The seven
index rows are the round message schedule (iterates of the standard
sixteen-element message permutation). -/
def compressCV (cv m : List Nat) (counter blockLen flags : Nat) : List Nat :=
  let st := cv ++ [0x6A09E667, 0xBB67AE85, 0x3C6EF372, 0xA54FF53A,
                   counter % 4294967296, counter / 4294967296 % 4294967296, blockLen, flags]
  let st := roundL st m 0 1 2 3 4 5 6 7 8 9 10 11 12 13 14 15
  let st := roundL st m 2 6 3 10 7 0 4 13 1 11 12 5 9 14 15 8
  let st := roundL st m 3 4 10 12 13 2 7 14 6 5 9 0 11 15 8 1
  let st := roundL st m 10 7 12 9 14 3 13 15 4 0 11 2 5 8 1 6
  let st := roundL st m 12 13 9 11 15 10 14 8 7 2 5 3 0 1 6 4
  let st := roundL st m 9 14 11 5 8 12 15 1 13 3 0 10 2 6 4 7
  let st := roundL st m 11 15 5 0 1 9 8 6 14 10 2 12 3 4 7 13
  [st.getD 0 0 ^^^ st.getD 8 0, st.getD 1 0 ^^^ st.getD 9 0,
   st.getD 2 0 ^^^ st.getD 10 0, st.getD 3 0 ^^^ st.getD 11 0,
   st.getD 4 0 ^^^ st.getD 12 0, st.getD 5 0 ^^^ st.getD 13 0,
   st.getD 6 0 ^^^ st.getD 14 0, st.getD 7 0 ^^^ st.getD 15 0]

/-- Modelled from the spec: part of the hash primitive. Little-endian
grouping of bytes into 32-bit words, four bytes per word. -/
def wordsOfBytesLE : List Nat → List Nat
  | b0 :: b1 :: b2 :: b3 :: rest =>
      (b0 + 256 * b1 + 65536 * b2 + 16777216 * b3) :: wordsOfBytesLE rest
  | _ => []

/-- Modelled from the spec: part of the hash primitive. Little-endian
serialization of 32-bit words into bytes. -/
def bytesOfWordsLE : List Nat → List Nat
  | [] => []
  | w :: rest =>
      w % 256 :: w / 256 % 256 :: w / 65536 % 256 :: w / 16777216 % 256 :: bytesOfWordsLE rest

/-- Modelled from the spec: part of the hash primitive. The eight
initialization-vector words of the tree hash. -/
def ivWords : List Nat :=
  [0x6A09E667, 0xBB67AE85, 0x3C6EF372, 0xA54FF53A,
   0x510E527F, 0x9B05688C, 0x1F83D9AB, 0x5BE0CD19]

/-- Modelled from the spec: part of the hash primitive. Fold the chaining
value over the 64-byte blocks of a single chunk. The final (possibly
short, zero-padded) block carries the chunk-end and root flags (2 + 8),
the first block additionally the chunk-start flag (1). The fuel argument
only bounds the recursion; with fuel 17 it covers every input of at most
one chunk (1024 bytes), which includes every buffer the core hashes. -/
def chunkBlocks : Nat → List Nat → List Nat → Bool → List Nat
  | 0, cv, _, _ => cv
  | fuel + 1, cv, data, first =>
    if data.length ≤ 64 then
      compressCV cv (wordsOfBytesLE (data ++ List.replicate (64 - data.length) 0)) 0
        data.length ((if first then 1 else 0) + 10)
    else
      chunkBlocks fuel
        (compressCV cv (wordsOfBytesLE (data.take 64)) 0 64 (if first then 1 else 0))
        (data.drop 64) false

/-- Modelled from the spec: the hash primitive H of section 4.1 (the file
pow5-rs/src/blake3_reference.rs is not under src/). A deterministic,
total function from byte sequences to 32-byte digests, the standard
tree hash in plain hashing mode, restricted to single-chunk inputs
(every buffer the core hashes is at most 217 bytes). The model
reproduces the published test vectors recorded in
rs-lib/src/blake3.rs: the hash of the empty sequence and the hash of
the ASCII bytes of the string hello world. -/
def blake3_reference_hash (input : List Nat) : List Nat :=
  bytesOfWordsLE (chunkBlocks 17 ivWords input true)

/-- Header size of variant A, from pow5-rs/src/lib.rs. -/
def HEADER_SIZE_217A : Nat := 1 + 32 + 32 + 8 + 8 + 4 + 32 + 32 + 2 + 32 + 2 + 32

/-- Start of the 4-byte nonce field of variant A (byte 117). -/
def NONCE_START_217A : Nat := 1 + 32 + 32 + 8 + 8 + 4 + 32

/-- End of the 4-byte nonce field of variant A (byte 121). -/
def NONCE_END_217A : Nat := 1 + 32 + 32 + 8 + 8 + 4 + 32 + 4

/-- Digest size in bytes. -/
def HASH_SIZE : Nat := 32

/-- Start of the embedded work-par field of variant A (byte 185). -/
def WORK_PAR_START_217A : Nat := 1 + 32 + 32 + 8 + 8 + 4 + 32 + 32 + 2 + 32 + 2

/-- End of the embedded work-par field of variant A (byte 217). -/
def WORK_PAR_END_217A : Nat := 1 + 32 + 32 + 8 + 8 + 4 + 32 + 32 + 2 + 32 + 2 + 32

/-- Header size of variant B. -/
def HEADER_SIZE_64B : Nat := 64

/-- Start of the wide nonce field of variant B. -/
def NONCE_START_64B : Nat := 0

/-- End of the wide nonce field of variant B. -/
def NONCE_END_64B : Nat := 32

/-- Overwriting a contiguous range of a list, starting at the given
offset, with the bytes of src: the model of the Rust slice assignment
copy operations (and of the equivalent element-by-element loop used for
the work-par splice). -/
def copyFromSlice (l : List Nat) (start : Nat) (src : List Nat) : List Nat :=
  l.take start ++ src ++ l.drop (start + src.length)

/-- Big-endian byte encoding of a 32-bit word, as produced by the Rust
u32 to-big-endian-bytes conversion. -/
def u32ToBeBytes (n : Nat) : List Nat :=
  [n / 16777216 % 256, n / 65536 % 256, n / 256 % 256, n % 256]

/-- Big-endian serialization of a list of 32-bit words into bytes,
mirroring the serialization loop that fills final_pre_hash in
pow5-rs/src/lib.rs (x shifted right by 24, 16, 8, 0, truncated to a
byte, most significant first). -/
def bytesOfWordsBE : List Nat → List Nat
  | [] => []
  | w :: rest =>
      w / 16777216 % 256 :: w / 65536 % 256 :: w / 256 % 256 :: w % 256 :: bytesOfWordsBE rest

/-- The inner multiply-accumulate loop of the diffusion engine: for j in
0..32, add row j times column j to the accumulator, with u32 wrapping
multiplication and addition (modulo 2 ^ 32), starting from init. -/
def macEntry (row col : List Nat) (init : Nat) : Nat :=
  (List.range 32).foldl
    (fun acc j => (acc + row.getD j 0 * col.getD j 0 % 4294967296) % 4294967296) init

/-- The outer loop of the diffusion engine, from pow5-rs/src/lib.rs: the
working column starts as the row, and for i in 0..32 the column is
re-hashed and entry i of the accumulator array (initially 32 zeroes)
accumulates the multiply-add of the row against the new column. -/
def matmulRounds (row : List Nat) : List Nat :=
  ((List.range 32).foldl
    (fun st i =>
      let col := blake3_reference_hash st.1
      (col, st.2.set i (macEntry row col (st.2.getD i 0))))
    (row, List.replicate 32 0)).2

/-- get_work_par_217a from pow5-rs/src/lib.rs: work_par for a 217-byte
header. -/
def get_work_par_217a (header : List Nat) : Except String (List Nat) :=
  if header.length ≠ HEADER_SIZE_217A then
    .error ("header is not the correct size: expected " ++ toString HEADER_SIZE_217A ++
      ", got " ++ toString header.length)
  else
    let matrix_a_row_1 := blake3_reference_hash header
    let matrix_c_row_1 := matmulRounds matrix_a_row_1
    let final_pre_hash := bytesOfWordsBE matrix_c_row_1
    .ok (blake3_reference_hash final_pre_hash)

/-- elementary_iteration_217a from pow5-rs/src/lib.rs: compute work_par,
splice it into bytes 185..217 of the header, then hash the result twice. -/
def elementary_iteration_217a (header : List Nat) : Except String (List Nat) :=
  if header.length ≠ HEADER_SIZE_217A then
    .error ("header is not the correct size: expected " ++ toString HEADER_SIZE_217A ++
      ", got " ++ toString header.length)
  else
    match get_work_par_217a header with
    | .error e => .error e
    | .ok work_par =>
      let working_header := copyFromSlice header WORK_PAR_START_217A work_par
      let hash_1 := blake3_reference_hash working_header
      let hash_2 := blake3_reference_hash hash_1
      .ok hash_2

/-- insert_nonce_217a from pow5-rs/src/lib.rs: write the big-endian
4-byte nonce into bytes 117..121 of a 217-byte header. -/
def insert_nonce_217a (header : List Nat) (nonce : Nat) : Except String (List Nat) :=
  if header.length ≠ HEADER_SIZE_217A then
    .error ("header is not the correct size: expected " ++ toString HEADER_SIZE_217A ++
      ", got " ++ toString header.length)
  else
    .ok (copyFromSlice header NONCE_START_217A (u32ToBeBytes nonce))

/-- matmul_work_64b from pow5-rs/src/lib.rs: the same diffusion
computation for a 64-byte header. -/
def matmul_work_64b (header : List Nat) : Except String (List Nat) :=
  if header.length ≠ HEADER_SIZE_64B then
    .error ("header is not the correct size: expected " ++ toString HEADER_SIZE_64B ++
      ", got " ++ toString header.length)
  else
    let matrix_a_row_1 := blake3_reference_hash header
    let matrix_c_row_1 := matmulRounds matrix_a_row_1
    let final_pre_hash := bytesOfWordsBE matrix_c_row_1
    .ok (blake3_reference_hash final_pre_hash)

/-- elementary_iteration_64b from pow5-rs/src/lib.rs: double-hash the
matmul result; no splice step for this variant. -/
def elementary_iteration_64b (header : List Nat) : Except String (List Nat) :=
  if header.length ≠ HEADER_SIZE_64B then
    .error ("header is not the correct size: expected " ++ toString HEADER_SIZE_64B ++
      ", got " ++ toString header.length)
  else
    match matmul_work_64b header with
    | .error e => .error e
    | .ok work =>
      let hash_1 := blake3_reference_hash work
      let hash_2 := blake3_reference_hash hash_1
      .ok hash_2

/-- insert_nonce_64b from pow5-rs/src/lib.rs: write the big-endian
4-byte nonce into bytes 28..32 of a 64-byte header. -/
def insert_nonce_64b (header : List Nat) (nonce : Nat) : Except String (List Nat) :=
  if header.length ≠ HEADER_SIZE_64B then
    .error ("header is not the correct size: expected " ++ toString HEADER_SIZE_64B ++
      ", got " ++ toString header.length)
  else
    .ok (copyFromSlice header 28 (u32ToBeBytes nonce))

/-- set_nonce_64b from pow5-rs/src/lib.rs: overwrite bytes 0..32 of a
64-byte header with a 32-byte nonce. -/
def set_nonce_64b (header : List Nat) (nonce : List Nat) : Except String (List Nat) :=
  if header.length ≠ HEADER_SIZE_64B then
    .error ("header is not the correct size: expected " ++ toString HEADER_SIZE_64B ++
      ", got " ++ toString header.length)
  else if nonce.length ≠ 32 then
    .error ("nonce is not the correct size: expected 32, got " ++ toString nonce.length)
  else
    .ok (copyFromSlice header NONCE_START_64B nonce)

/-- The reference diffusion function, written from the words of the spec
(section 4.2): seed is the hash of the buffer and is the row; a
32-element accumulator array of 32-bit unsigned integers starts at
zero and the column starts as the seed; for i in 0..32 the column is
re-hashed and accumulator entry i adds row j times column j for j in
0..32, with wraparound multiplication and addition modulo 2 ^ 32; the 32
accumulator values are serialized big-endian into 128 bytes, most
significant byte first; the result is the hash of those 128 bytes. -/
def diffusionEngineSpec (buffer : List Nat) : List Nat :=
  let row := blake3_reference_hash buffer
  let final := (List.range 32).foldl
    (fun (st : List Nat × List Nat) i =>
      let column := blake3_reference_hash st.1
      (column,
        st.2.set i ((List.range 32).foldl
          (fun acc j => (acc + row.getD j 0 * column.getD j 0 % 4294967296) % 4294967296)
          (st.2.getD i 0))))
    (row, List.replicate 32 0)
  blake3_reference_hash (final.2.flatMap
    (fun x => [x / 16777216 % 256, x / 65536 % 256, x / 256 % 256, x % 256]))

/-- The inner multiply-accumulate loop with exact (unbounded) natural
number arithmetic instead of wrapping arithmetic, used to show that the
wraparound in macEntry never actually engages. -/
def macEntryExact (row col : List Nat) (init : Nat) : Nat :=
  (List.range 32).foldl (fun acc j => acc + row.getD j 0 * col.getD j 0) init

end Pow5

namespace Pow5

/-- Reading inside the taken prefix of a list gives the original element. -/
theorem getD_take_of_lt : ∀ (l : List Nat) (k i : Nat), i < k →
    (l.take k).getD i 0 = l.getD i 0
  | [], _, _, _ => by simp
  | _ :: _, 0, i, h => absurd h (Nat.not_lt_zero i)
  | x :: xs, k + 1, 0, _ => by simp
  | x :: xs, k + 1, i + 1, h => by
      simp only [List.take_succ_cons, List.getD_cons_succ]
      exact getD_take_of_lt xs k i (by omega)

/-- Reading a dropped list at i reads the original at k + i. -/
theorem getD_drop_add : ∀ (l : List Nat) (k i : Nat),
    (l.drop k).getD i 0 = l.getD (k + i) 0
  | [], k, i => by simp
  | x :: xs, 0, i => by simp
  | x :: xs, k + 1, i => by
      have hik : k + 1 + i = (k + i) + 1 := by omega
      simp only [List.drop_succ_cons, hik, List.getD_cons_succ]
      exact getD_drop_add xs k i

/-- Overwriting a range inside the list bounds preserves the length. -/
theorem copyFromSlice_length (l src : List Nat) (s : Nat) (h : s + src.length ≤ l.length) :
    (copyFromSlice l s src).length = l.length := by
  unfold copyFromSlice
  rw [List.length_append, List.length_append, List.length_take, List.length_drop,
    Nat.min_eq_left (by omega)]
  omega

/-- Bytes before the overwritten range are unchanged. -/
theorem copyFromSlice_getD_left (l src : List Nat) (s i : Nat)
    (hsl : s ≤ l.length) (hi : i < s) :
    (copyFromSlice l s src).getD i 0 = l.getD i 0 := by
  unfold copyFromSlice
  rw [List.append_assoc]
  rw [List.getD_append _ _ _ _ (by rw [List.length_take]; exact Nat.lt_min.mpr ⟨hi, by omega⟩)]
  exact getD_take_of_lt l s i hi

/-- Bytes inside the overwritten range come from the source slice. -/
theorem copyFromSlice_getD_mid (l src : List Nat) (s j : Nat)
    (hsl : s ≤ l.length) (hj : j < src.length) :
    (copyFromSlice l s src).getD (s + j) 0 = src.getD j 0 := by
  unfold copyFromSlice
  rw [List.append_assoc]
  rw [List.getD_append_right _ _ _ _
    (le_trans (by rw [List.length_take]; exact Nat.min_le_left _ _) (Nat.le_add_right s j))]
  rw [List.length_take, Nat.min_eq_left hsl]
  have hj' : s + j - s = j := by omega
  rw [hj']
  exact List.getD_append _ _ _ _ hj

/-- Bytes past the overwritten range are unchanged. -/
theorem copyFromSlice_getD_ge (l src : List Nat) (s i : Nat)
    (hsl : s ≤ l.length) (hi : s + src.length ≤ i) :
    (copyFromSlice l s src).getD i 0 = l.getD i 0 := by
  unfold copyFromSlice
  rw [List.append_assoc]
  have hlen1 : (List.take s l).length ≤ i := by
    rw [List.length_take]
    have := Nat.min_le_left s l.length
    omega
  rw [List.getD_append_right _ _ _ _ hlen1]
  rw [List.length_take, Nat.min_eq_left hsl]
  rw [List.getD_append_right _ _ _ _ (by omega)]
  rw [getD_drop_add]
  congr 1
  omega

/-- Overwriting the same range twice keeps only the second write. -/
theorem copyFromSlice_overwrite (l src1 src2 : List Nat) (s : Nat)
    (hlen : src1.length = src2.length) (hs : s + src1.length ≤ l.length) :
    copyFromSlice (copyFromSlice l s src1) s src2 = copyFromSlice l s src2 := by
  have ht : (l.take s).length = s := by
    rw [List.length_take]; exact Nat.min_eq_left (by omega)
  have h1 : (l.take s ++ src1 ++ l.drop (s + src1.length)).take s = l.take s := by
    rw [List.append_assoc]
    exact List.take_left' ht
  have h2 : (l.take s ++ src1 ++ l.drop (s + src1.length)).drop (s + src2.length) =
      l.drop (s + src1.length) :=
    List.drop_left' (by rw [List.length_append, ht]; omega)
  show (l.take s ++ src1 ++ l.drop (s + src1.length)).take s ++ src2 ++
      (l.take s ++ src1 ++ l.drop (s + src1.length)).drop (s + src2.length) =
      copyFromSlice l s src2
  rw [h1, h2, hlen]
  rfl

/-- A getD read with default 0 from a list of bytes is below 256. -/
theorem getD_lt_of_forall_mem (l : List Nat) (h : ∀ b ∈ l, b < 256) (j : Nat) :
    l.getD j 0 < 256 := by
  rcases Nat.lt_or_ge j l.length with hj | hj
  · rw [List.getD_eq_getElem l 0 hj]
    exact h _ (List.getElem_mem hj)
  · rw [List.getD_eq_default l 0 hj]
    omega

/-- The big-endian word serialization written with flatMap agrees with
the recursive serialization used in the source embedding. -/
theorem flatMap_be_eq_bytesOfWordsBE : ∀ l : List Nat,
    (l.flatMap fun x => [x / 16777216 % 256, x / 65536 % 256, x / 256 % 256, x % 256]) =
      bytesOfWordsBE l
  | [] => rfl
  | w :: rest => by
      rw [List.flatMap_cons, flatMap_be_eq_bytesOfWordsBE rest]
      rfl

end Pow5

namespace Pow5

/-- For byte-valued rows and columns, the first n steps of the wrapping
multiply-accumulate fold agree with the exact fold and the exact fold is
bounded by init + 65025 * n, provided that bound is below 2 ^ 32. -/
theorem macFold_eq_and_le : ∀ (n : Nat) (row col : List Nat) (init : Nat),
    (∀ j : Nat, row.getD j 0 < 256) → (∀ j : Nat, col.getD j 0 < 256) →
    init + 65025 * n < 4294967296 →
    ((List.range n).foldl
        (fun acc j => (acc + row.getD j 0 * col.getD j 0 % 4294967296) % 4294967296) init =
      (List.range n).foldl (fun acc j => acc + row.getD j 0 * col.getD j 0) init) ∧
    (List.range n).foldl (fun acc j => acc + row.getD j 0 * col.getD j 0) init ≤
      init + 65025 * n := by
  intro n
  induction n with
  | zero => intro row col init _ _ _; simp
  | succ k ih =>
    intro row col init h1 h2 h3
    have hb : row.getD k 0 * col.getD k 0 ≤ 65025 := by
      have hr := h1 k
      have hc := h2 k
      calc row.getD k 0 * col.getD k 0 ≤ 255 * 255 := Nat.mul_le_mul (by omega) (by omega)
        _ = 65025 := by norm_num
    have hlt : init + 65025 * k < 4294967296 := by omega
    obtain ⟨heq, hle⟩ := ih row col init h1 h2 hlt
    rw [List.range_succ, List.foldl_append, List.foldl_append]
    simp only [List.foldl_cons, List.foldl_nil]
    constructor
    · rw [heq]
      rw [Nat.mod_eq_of_lt (show row.getD k 0 * col.getD k 0 < 4294967296 by omega)]
      exact Nat.mod_eq_of_lt (by omega)
    · omega

/-- On a correctly sized header, get_work_par_217a succeeds with the hash
of the big-endian serialization of the diffusion accumulators. -/
theorem get_work_par_217a_ok (h : List Nat) (hl : h.length = 217) :
    get_work_par_217a h =
      .ok (blake3_reference_hash (bytesOfWordsBE (matmulRounds (blake3_reference_hash h)))) := by
  unfold get_work_par_217a
  rw [if_neg (by simp [HEADER_SIZE_217A, hl])]

/-- On a correctly sized header, elementary_iteration_217a succeeds with
the double hash of the header with work_par spliced in at byte 185. -/
theorem elementary_iteration_217a_ok (h : List Nat) (hl : h.length = 217) :
    elementary_iteration_217a h =
      .ok (blake3_reference_hash (blake3_reference_hash (copyFromSlice h WORK_PAR_START_217A
        (blake3_reference_hash (bytesOfWordsBE (matmulRounds (blake3_reference_hash h))))))) := by
  unfold elementary_iteration_217a
  rw [if_neg (by simp [HEADER_SIZE_217A, hl]), get_work_par_217a_ok h hl]

/-- On a correctly sized header, insert_nonce_217a succeeds and overwrites
bytes 117..121 with the big-endian nonce. -/
theorem insert_nonce_217a_ok (h : List Nat) (n : Nat) (hl : h.length = 217) :
    insert_nonce_217a h n = .ok (copyFromSlice h NONCE_START_217A (u32ToBeBytes n)) := by
  unfold insert_nonce_217a
  rw [if_neg (by simp [HEADER_SIZE_217A, hl])]

/-- On a correctly sized header, matmul_work_64b succeeds with the hash
of the big-endian serialization of the diffusion accumulators. -/
theorem matmul_work_64b_ok (h : List Nat) (hl : h.length = 64) :
    matmul_work_64b h =
      .ok (blake3_reference_hash (bytesOfWordsBE (matmulRounds (blake3_reference_hash h)))) := by
  unfold matmul_work_64b
  rw [if_neg (by simp [HEADER_SIZE_64B, hl])]

/-- On a correctly sized header, elementary_iteration_64b succeeds with
the double hash of the matmul result. -/
theorem elementary_iteration_64b_ok (h : List Nat) (hl : h.length = 64) :
    elementary_iteration_64b h =
      .ok (blake3_reference_hash (blake3_reference_hash
        (blake3_reference_hash (bytesOfWordsBE (matmulRounds (blake3_reference_hash h)))))) := by
  unfold elementary_iteration_64b
  rw [if_neg (by simp [HEADER_SIZE_64B, hl]), matmul_work_64b_ok h hl]

/-- On a correctly sized header, insert_nonce_64b succeeds and overwrites
bytes 28..32 with the big-endian nonce. -/
theorem insert_nonce_64b_ok (h : List Nat) (n : Nat) (hl : h.length = 64) :
    insert_nonce_64b h n = .ok (copyFromSlice h 28 (u32ToBeBytes n)) := by
  unfold insert_nonce_64b
  rw [if_neg (by simp [HEADER_SIZE_64B, hl])]

/-- On correctly sized arguments, set_nonce_64b succeeds and overwrites
bytes 0..32 with the wide nonce. -/
theorem set_nonce_64b_ok (h nc : List Nat) (hl : h.length = 64) (hn : nc.length = 32) :
    set_nonce_64b h nc = .ok (copyFromSlice h NONCE_START_64B nc) := by
  unfold set_nonce_64b
  rw [if_neg (by simp [HEADER_SIZE_64B, hl]), if_neg (by simp [hn])]

end Pow5

namespace Pow5

/-- Claim C1: for every byte buffer of the correct length (217 for
variant A, 64 for variant B), get_work_par_217a and matmul_work_64b both
compute the same reference diffusion function of the buffer (seed the
row with the hash of the buffer, 32 rounds of column re-hashing and
wrapping multiply-accumulate into 32 accumulators, big-endian
serialization to 128 bytes, final hash). -/
theorem C1_diffusion_agreement : ∀ buffer : List Nat,
    (buffer.length = 217 → get_work_par_217a buffer = .ok (diffusionEngineSpec buffer)) ∧
    (buffer.length = 64 → matmul_work_64b buffer = .ok (diffusionEngineSpec buffer)) := by
  intro buffer
  constructor
  · intro hl
    rw [get_work_par_217a_ok buffer hl]
    simp only [diffusionEngineSpec]
    rw [flatMap_be_eq_bytesOfWordsBE]
    rfl
  · intro hl
    rw [matmul_work_64b_ok buffer hl]
    simp only [diffusionEngineSpec]
    rw [flatMap_be_eq_bytesOfWordsBE]
    rfl

/-- Witness for C1 at the all-zero headers of both variants. -/
theorem C1_witness :
    get_work_par_217a (List.replicate 217 0) = .ok (diffusionEngineSpec (List.replicate 217 0)) ∧
    matmul_work_64b (List.replicate 64 0) = .ok (diffusionEngineSpec (List.replicate 64 0)) :=
  ⟨(C1_diffusion_agreement (List.replicate 217 0)).1 (List.length_replicate 217 0),
   (C1_diffusion_agreement (List.replicate 64 0)).2 (List.length_replicate 64 0)⟩

/-- Claim C5: every operation fails with the size-mismatch error
(reporting expected and actual lengths) exactly when a buffer has the
wrong length, and succeeds whenever all lengths are correct; no other
error class exists. -/
theorem C5_length_guard :
    (∀ h : List Nat, h.length ≠ 217 → get_work_par_217a h =
      .error ("header is not the correct size: expected " ++ toString 217 ++
        ", got " ++ toString h.length)) ∧
    (∀ h : List Nat, h.length = 217 → ∃ v, get_work_par_217a h = .ok v) ∧
    (∀ h : List Nat, h.length ≠ 217 → elementary_iteration_217a h =
      .error ("header is not the correct size: expected " ++ toString 217 ++
        ", got " ++ toString h.length)) ∧
    (∀ h : List Nat, h.length = 217 → ∃ v, elementary_iteration_217a h = .ok v) ∧
    (∀ (h : List Nat) (n : Nat), h.length ≠ 217 → insert_nonce_217a h n =
      .error ("header is not the correct size: expected " ++ toString 217 ++
        ", got " ++ toString h.length)) ∧
    (∀ (h : List Nat) (n : Nat), h.length = 217 → ∃ v, insert_nonce_217a h n = .ok v) ∧
    (∀ h : List Nat, h.length ≠ 64 → matmul_work_64b h =
      .error ("header is not the correct size: expected " ++ toString 64 ++
        ", got " ++ toString h.length)) ∧
    (∀ h : List Nat, h.length = 64 → ∃ v, matmul_work_64b h = .ok v) ∧
    (∀ h : List Nat, h.length ≠ 64 → elementary_iteration_64b h =
      .error ("header is not the correct size: expected " ++ toString 64 ++
        ", got " ++ toString h.length)) ∧
    (∀ h : List Nat, h.length = 64 → ∃ v, elementary_iteration_64b h = .ok v) ∧
    (∀ (h : List Nat) (n : Nat), h.length ≠ 64 → insert_nonce_64b h n =
      .error ("header is not the correct size: expected " ++ toString 64 ++
        ", got " ++ toString h.length)) ∧
    (∀ (h : List Nat) (n : Nat), h.length = 64 → ∃ v, insert_nonce_64b h n = .ok v) ∧
    (∀ h nc : List Nat, h.length ≠ 64 → set_nonce_64b h nc =
      .error ("header is not the correct size: expected " ++ toString 64 ++
        ", got " ++ toString h.length)) ∧
    (∀ h nc : List Nat, h.length = 64 → nc.length ≠ 32 → set_nonce_64b h nc =
      .error ("nonce is not the correct size: expected 32, got " ++ toString nc.length)) ∧
    (∀ h nc : List Nat, h.length = 64 → nc.length = 32 → ∃ v, set_nonce_64b h nc = .ok v) := by
  refine ⟨?_, ?_, ?_, ?_, ?_, ?_, ?_, ?_, ?_, ?_, ?_, ?_, ?_, ?_, ?_⟩
  · intro h hne
    unfold get_work_par_217a
    rw [if_pos (show h.length ≠ HEADER_SIZE_217A from hne)]
    rfl
  · intro h hl
    exact ⟨_, get_work_par_217a_ok h hl⟩
  · intro h hne
    unfold elementary_iteration_217a
    rw [if_pos (show h.length ≠ HEADER_SIZE_217A from hne)]
    rfl
  · intro h hl
    exact ⟨_, elementary_iteration_217a_ok h hl⟩
  · intro h n hne
    unfold insert_nonce_217a
    rw [if_pos (show h.length ≠ HEADER_SIZE_217A from hne)]
    rfl
  · intro h n hl
    exact ⟨_, insert_nonce_217a_ok h n hl⟩
  · intro h hne
    unfold matmul_work_64b
    rw [if_pos (show h.length ≠ HEADER_SIZE_64B from hne)]
    rfl
  · intro h hl
    exact ⟨_, matmul_work_64b_ok h hl⟩
  · intro h hne
    unfold elementary_iteration_64b
    rw [if_pos (show h.length ≠ HEADER_SIZE_64B from hne)]
    rfl
  · intro h hl
    exact ⟨_, elementary_iteration_64b_ok h hl⟩
  · intro h n hne
    unfold insert_nonce_64b
    rw [if_pos (show h.length ≠ HEADER_SIZE_64B from hne)]
    rfl
  · intro h n hl
    exact ⟨_, insert_nonce_64b_ok h n hl⟩
  · intro h nc hne
    unfold set_nonce_64b
    rw [if_pos (show h.length ≠ HEADER_SIZE_64B from hne)]
    rfl
  · intro h nc hl hne
    unfold set_nonce_64b
    rw [if_neg (by simp [HEADER_SIZE_64B, hl]), if_pos hne]
  · intro h nc hl hn
    exact ⟨_, set_nonce_64b_ok h nc hl hn⟩

/-- Witness for C5: the empty buffer is rejected with the size-mismatch
message, and a correctly sized header is accepted. -/
theorem C5_witness :
    (get_work_par_217a [] =
      .error ("header is not the correct size: expected " ++ toString 217 ++
        ", got " ++ toString (List.length ([] : List Nat)))) ∧
    (∃ v, get_work_par_217a (List.replicate 217 0) = .ok v) :=
  ⟨C5_length_guard.1 [] (by decide),
   C5_length_guard.2.1 (List.replicate 217 0) (List.length_replicate 217 0)⟩

end Pow5

namespace Pow5

/-- Claim C6 (amended): the multiply-accumulate step of the diffusion
engine uses wraparound arithmetic modulo 2 ^ 32 and never traps, but
overflow can never actually occur: for byte-valued rows and columns each
accumulator entry is a sum of 32 products of bytes, at most
init + 32 * 255 * 255 = init + 2080800, so the wrapping computation
coincides with exact natural arithmetic whenever that bound is below
2 ^ 32 (in the engine init is 0). -/
theorem C6_mac_no_overflow : ∀ (row col : List Nat) (init : Nat),
    (∀ b ∈ row, b < 256) → (∀ b ∈ col, b < 256) → init + 2080800 < 4294967296 →
    macEntry row col init = macEntryExact row col init ∧
    macEntryExact row col init ≤ init + 2080800 := by
  intro row col init hr hc hlt
  have h1 : ∀ j : Nat, row.getD j 0 < 256 := getD_lt_of_forall_mem row hr
  have h2 : ∀ j : Nat, col.getD j 0 < 256 := getD_lt_of_forall_mem col hc
  have hm := macFold_eq_and_le 32 row col init h1 h2 (by omega)
  unfold macEntry macEntryExact
  refine ⟨hm.1, ?_⟩
  have := hm.2
  omega

/-- Counterexample for C6 as stated: even at the pointwise-maximal byte
inputs the accumulator only reaches 2080800, far below 2 ^ 32, so the
wrapping and the exact value agree and no overflow ever happens in the
multiply-accumulate step. -/
theorem C6_counterexample :
    macEntry (List.replicate 32 255) (List.replicate 32 255) 0 = 2080800 ∧
    macEntryExact (List.replicate 32 255) (List.replicate 32 255) 0 = 2080800 ∧
    2080800 < 4294967296 := by decide

/-- Witness for C6 at the maximal byte-valued inputs. -/
theorem C6_witness :
    macEntry (List.replicate 32 255) (List.replicate 32 255) 0 =
      macEntryExact (List.replicate 32 255) (List.replicate 32 255) 0 ∧
    macEntryExact (List.replicate 32 255) (List.replicate 32 255) 0 ≤ 0 + 2080800 :=
  C6_mac_no_overflow (List.replicate 32 255) (List.replicate 32 255) 0
    (by decide) (by decide) (by decide)

/-- Claim C7: for every 217-byte header and every nonce, insert_nonce_217a
returns a 217-byte buffer that differs from the input only in bytes
117..121, which hold the big-endian encoding of the nonce; the input
list itself is immutable in this model, so the original header is
unchanged. -/
theorem C7_insert_nonce_217a_frame : ∀ (h : List Nat) (n : Nat), h.length = 217 →
    ∃ r, insert_nonce_217a h n = .ok r ∧ r.length = 217 ∧
      (∀ i, i < 117 → r.getD i 0 = h.getD i 0) ∧
      (∀ i, 121 ≤ i → r.getD i 0 = h.getD i 0) ∧
      r.getD 117 0 = n / 16777216 % 256 ∧ r.getD 118 0 = n / 65536 % 256 ∧
      r.getD 119 0 = n / 256 % 256 ∧ r.getD 120 0 = n % 256 := by
  intro h n hl
  have hs : NONCE_START_217A = 117 := rfl
  have hlen4 : (u32ToBeBytes n).length = 4 := rfl
  have hsl : NONCE_START_217A ≤ h.length := by rw [hs, hl]; omega
  refine ⟨_, insert_nonce_217a_ok h n hl, ?_, ?_, ?_, ?_, ?_, ?_, ?_⟩
  · rw [copyFromSlice_length h (u32ToBeBytes n) NONCE_START_217A (by rw [hs, hlen4, hl]; omega)]
    exact hl
  · intro i hi
    exact copyFromSlice_getD_left h (u32ToBeBytes n) NONCE_START_217A i hsl (by rw [hs]; exact hi)
  · intro i hi
    exact copyFromSlice_getD_ge h (u32ToBeBytes n) NONCE_START_217A i hsl
      (by rw [hs, hlen4]; omega)
  · have h117 : (117 : Nat) = NONCE_START_217A + 0 := rfl
    rw [h117, copyFromSlice_getD_mid h (u32ToBeBytes n) NONCE_START_217A 0 hsl
      (by rw [hlen4]; omega)]
    rfl
  · have h118 : (118 : Nat) = NONCE_START_217A + 1 := rfl
    rw [h118, copyFromSlice_getD_mid h (u32ToBeBytes n) NONCE_START_217A 1 hsl
      (by rw [hlen4]; omega)]
    rfl
  · have h119 : (119 : Nat) = NONCE_START_217A + 2 := rfl
    rw [h119, copyFromSlice_getD_mid h (u32ToBeBytes n) NONCE_START_217A 2 hsl
      (by rw [hlen4]; omega)]
    rfl
  · have h120 : (120 : Nat) = NONCE_START_217A + 3 := rfl
    rw [h120, copyFromSlice_getD_mid h (u32ToBeBytes n) NONCE_START_217A 3 hsl
      (by rw [hlen4]; omega)]
    rfl

/-- Witness for C7 at a concrete header of 7-bytes and the nonce
3735928559. -/
theorem C7_witness :
    ∃ r, insert_nonce_217a (List.replicate 217 7) 3735928559 = .ok r ∧ r.length = 217 ∧
      (∀ i, i < 117 → r.getD i 0 = (List.replicate 217 7).getD i 0) ∧
      (∀ i, 121 ≤ i → r.getD i 0 = (List.replicate 217 7).getD i 0) ∧
      r.getD 117 0 = 3735928559 / 16777216 % 256 ∧
      r.getD 118 0 = 3735928559 / 65536 % 256 ∧
      r.getD 119 0 = 3735928559 / 256 % 256 ∧ r.getD 120 0 = 3735928559 % 256 :=
  C7_insert_nonce_217a_frame (List.replicate 217 7) 3735928559 (List.length_replicate 217 7)

end Pow5

namespace Pow5

/-- Claim C8: insert_nonce_64b writes the big-endian nonce into bytes
28..32 of a 64-byte header and leaves every other byte unchanged; in
particular with nonce 0x12345678 those bytes become 0x12, 0x34, 0x56,
0x78. -/
theorem C8_insert_nonce_64b_frame : ∀ (h : List Nat) (n : Nat), h.length = 64 →
    ∃ r, insert_nonce_64b h n = .ok r ∧ r.length = 64 ∧
      (∀ i, i < 28 → r.getD i 0 = h.getD i 0) ∧
      (∀ i, 32 ≤ i → r.getD i 0 = h.getD i 0) ∧
      r.getD 28 0 = n / 16777216 % 256 ∧ r.getD 29 0 = n / 65536 % 256 ∧
      r.getD 30 0 = n / 256 % 256 ∧ r.getD 31 0 = n % 256 ∧
      (n = 305419896 →
        r.getD 28 0 = 18 ∧ r.getD 29 0 = 52 ∧ r.getD 30 0 = 86 ∧ r.getD 31 0 = 120) := by
  intro h n hl
  have hlen4 : (u32ToBeBytes n).length = 4 := rfl
  have hsl : (28 : Nat) ≤ h.length := by rw [hl]; omega
  have hb0 : (copyFromSlice h 28 (u32ToBeBytes n)).getD 28 0 = n / 16777216 % 256 :=
    copyFromSlice_getD_mid h (u32ToBeBytes n) 28 0 hsl (by rw [hlen4]; omega)
  have hb1 : (copyFromSlice h 28 (u32ToBeBytes n)).getD 29 0 = n / 65536 % 256 :=
    copyFromSlice_getD_mid h (u32ToBeBytes n) 28 1 hsl (by rw [hlen4]; omega)
  have hb2 : (copyFromSlice h 28 (u32ToBeBytes n)).getD 30 0 = n / 256 % 256 :=
    copyFromSlice_getD_mid h (u32ToBeBytes n) 28 2 hsl (by rw [hlen4]; omega)
  have hb3 : (copyFromSlice h 28 (u32ToBeBytes n)).getD 31 0 = n % 256 :=
    copyFromSlice_getD_mid h (u32ToBeBytes n) 28 3 hsl (by rw [hlen4]; omega)
  refine ⟨_, insert_nonce_64b_ok h n hl, ?_, ?_, ?_, hb0, hb1, hb2, hb3, ?_⟩
  · rw [copyFromSlice_length h (u32ToBeBytes n) 28 (by rw [hlen4, hl]; omega)]
    exact hl
  · intro i hi
    exact copyFromSlice_getD_left h (u32ToBeBytes n) 28 i hsl hi
  · intro i hi
    exact copyFromSlice_getD_ge h (u32ToBeBytes n) 28 i hsl (by rw [hlen4]; omega)
  · intro hn
    subst hn
    refine ⟨?_, ?_, ?_, ?_⟩
    · rw [hb0]
    · rw [hb1]
    · rw [hb2]
    · rw [hb3]

/-- Witness for C8 at a concrete header and the nonce 0x12345678. -/
theorem C8_witness :
    ∃ r, insert_nonce_64b (List.replicate 64 9) 305419896 = .ok r ∧ r.length = 64 ∧
      (∀ i, i < 28 → r.getD i 0 = (List.replicate 64 9).getD i 0) ∧
      (∀ i, 32 ≤ i → r.getD i 0 = (List.replicate 64 9).getD i 0) ∧
      r.getD 28 0 = 305419896 / 16777216 % 256 ∧ r.getD 29 0 = 305419896 / 65536 % 256 ∧
      r.getD 30 0 = 305419896 / 256 % 256 ∧ r.getD 31 0 = 305419896 % 256 ∧
      (305419896 = 305419896 →
        r.getD 28 0 = 18 ∧ r.getD 29 0 = 52 ∧ r.getD 30 0 = 86 ∧ r.getD 31 0 = 120) :=
  C8_insert_nonce_64b_frame (List.replicate 64 9) 305419896 (List.length_replicate 64 9)

/-- Claim C9: set_nonce_64b overwrites bytes 0..32 of a 64-byte header
with the 32-byte nonce and leaves bytes 32..64 unchanged; on the
all-zero header with the all-0x11 nonce the result is 32 bytes of 0x11
followed by 32 zero bytes. -/
theorem C9_set_nonce_64b_frame :
    (set_nonce_64b (List.replicate 64 0) (List.replicate 32 17) =
      .ok (List.replicate 32 17 ++ List.replicate 32 0)) ∧
    ∀ (h nc : List Nat), h.length = 64 → nc.length = 32 →
      ∃ r, set_nonce_64b h nc = .ok r ∧ r.length = 64 ∧
        (∀ i, i < 32 → r.getD i 0 = nc.getD i 0) ∧
        (∀ i, 32 ≤ i → r.getD i 0 = h.getD i 0) := by
  constructor
  · rfl
  · intro h nc hl hn
    have h0 : NONCE_START_64B = 0 := rfl
    have hsl : NONCE_START_64B ≤ h.length := by rw [h0]; omega
    refine ⟨_, set_nonce_64b_ok h nc hl hn, ?_, ?_, ?_⟩
    · rw [copyFromSlice_length h nc NONCE_START_64B (by rw [h0, hn, hl]; omega)]
      exact hl
    · intro i hi
      have hm := copyFromSlice_getD_mid h nc NONCE_START_64B i hsl (by rw [hn]; exact hi)
      rwa [h0, Nat.zero_add] at hm
    · intro i hi
      exact copyFromSlice_getD_ge h nc NONCE_START_64B i hsl (by rw [h0, hn]; omega)

/-- Witness for C9 at the all-zero header with the all-0x11 nonce. -/
theorem C9_witness :
    ∃ r, set_nonce_64b (List.replicate 64 0) (List.replicate 32 17) = .ok r ∧ r.length = 64 ∧
      (∀ i, i < 32 → r.getD i 0 = (List.replicate 32 17).getD i 0) ∧
      (∀ i, 32 ≤ i → r.getD i 0 = (List.replicate 64 0).getD i 0) :=
  C9_set_nonce_64b_frame.2 (List.replicate 64 0) (List.replicate 32 17)
    (List.length_replicate 64 0) (List.length_replicate 32 17)

/-- Claim C10: nonce insertion is overwriting (last write wins) for
insert_nonce_217a, insert_nonce_64b and set_nonce_64b: inserting twice
equals inserting only the second nonce. -/
theorem C10_last_write_wins :
    (∀ (h : List Nat) (n1 n2 : Nat), h.length = 217 →
      Except.bind (insert_nonce_217a h n1) (fun h2 => insert_nonce_217a h2 n2) =
        insert_nonce_217a h n2) ∧
    (∀ (h : List Nat) (n1 n2 : Nat), h.length = 64 →
      Except.bind (insert_nonce_64b h n1) (fun h2 => insert_nonce_64b h2 n2) =
        insert_nonce_64b h n2) ∧
    (∀ (h m1 m2 : List Nat), h.length = 64 → m1.length = 32 → m2.length = 32 →
      Except.bind (set_nonce_64b h m1) (fun h2 => set_nonce_64b h2 m2) =
        set_nonce_64b h m2) := by
  refine ⟨?_, ?_, ?_⟩
  · intro h n1 n2 hl
    have hs : NONCE_START_217A = 117 := rfl
    have hlen4 : (u32ToBeBytes n1).length = 4 := rfl
    have hb : NONCE_START_217A + (u32ToBeBytes n1).length ≤ h.length := by
      rw [hs, hlen4, hl]; omega
    have hr1len : (copyFromSlice h NONCE_START_217A (u32ToBeBytes n1)).length = 217 := by
      rw [copyFromSlice_length h (u32ToBeBytes n1) NONCE_START_217A hb]
      exact hl
    calc Except.bind (insert_nonce_217a h n1) (fun h2 => insert_nonce_217a h2 n2)
        = insert_nonce_217a (copyFromSlice h NONCE_START_217A (u32ToBeBytes n1)) n2 := by
          rw [insert_nonce_217a_ok h n1 hl]
          rfl
      _ = .ok (copyFromSlice (copyFromSlice h NONCE_START_217A (u32ToBeBytes n1))
            NONCE_START_217A (u32ToBeBytes n2)) := insert_nonce_217a_ok _ n2 hr1len
      _ = .ok (copyFromSlice h NONCE_START_217A (u32ToBeBytes n2)) := by
          rw [copyFromSlice_overwrite h (u32ToBeBytes n1) (u32ToBeBytes n2)
            NONCE_START_217A rfl hb]
      _ = insert_nonce_217a h n2 := (insert_nonce_217a_ok h n2 hl).symm
  · intro h n1 n2 hl
    have hlen4 : (u32ToBeBytes n1).length = 4 := rfl
    have hb : (28 : Nat) + (u32ToBeBytes n1).length ≤ h.length := by rw [hlen4, hl]; omega
    have hr1len : (copyFromSlice h 28 (u32ToBeBytes n1)).length = 64 := by
      rw [copyFromSlice_length h (u32ToBeBytes n1) 28 hb]
      exact hl
    calc Except.bind (insert_nonce_64b h n1) (fun h2 => insert_nonce_64b h2 n2)
        = insert_nonce_64b (copyFromSlice h 28 (u32ToBeBytes n1)) n2 := by
          rw [insert_nonce_64b_ok h n1 hl]
          rfl
      _ = .ok (copyFromSlice (copyFromSlice h 28 (u32ToBeBytes n1)) 28 (u32ToBeBytes n2)) :=
          insert_nonce_64b_ok _ n2 hr1len
      _ = .ok (copyFromSlice h 28 (u32ToBeBytes n2)) := by
          rw [copyFromSlice_overwrite h (u32ToBeBytes n1) (u32ToBeBytes n2) 28 rfl hb]
      _ = insert_nonce_64b h n2 := (insert_nonce_64b_ok h n2 hl).symm
  · intro h m1 m2 hl hm1 hm2
    have hm12 : m1.length = m2.length := by rw [hm1, hm2]
    have hb : NONCE_START_64B + m1.length ≤ h.length := by
      rw [show NONCE_START_64B = 0 from rfl, hm1, hl]; omega
    have hr1len : (copyFromSlice h NONCE_START_64B m1).length = 64 := by
      rw [copyFromSlice_length h m1 NONCE_START_64B hb]
      exact hl
    calc Except.bind (set_nonce_64b h m1) (fun h2 => set_nonce_64b h2 m2)
        = set_nonce_64b (copyFromSlice h NONCE_START_64B m1) m2 := by
          rw [set_nonce_64b_ok h m1 hl hm1]
          rfl
      _ = .ok (copyFromSlice (copyFromSlice h NONCE_START_64B m1) NONCE_START_64B m2) :=
          set_nonce_64b_ok _ m2 hr1len hm2
      _ = .ok (copyFromSlice h NONCE_START_64B m2) := by
          rw [copyFromSlice_overwrite h m1 m2 NONCE_START_64B hm12 hb]
      _ = set_nonce_64b h m2 := (set_nonce_64b_ok h m2 hl hm2).symm

/-- Witness for C10 at concrete headers and nonces for all three
insertion operations. -/
theorem C10_witness :
    (Except.bind (insert_nonce_217a (List.replicate 217 0) 1)
        (fun h2 => insert_nonce_217a h2 2) = insert_nonce_217a (List.replicate 217 0) 2) ∧
    (Except.bind (insert_nonce_64b (List.replicate 64 0) 1)
        (fun h2 => insert_nonce_64b h2 2) = insert_nonce_64b (List.replicate 64 0) 2) ∧
    (Except.bind (set_nonce_64b (List.replicate 64 0) (List.replicate 32 1))
        (fun h2 => set_nonce_64b h2 (List.replicate 32 2)) =
      set_nonce_64b (List.replicate 64 0) (List.replicate 32 2)) :=
  ⟨C10_last_write_wins.1 (List.replicate 217 0) 1 2 (List.length_replicate 217 0),
   C10_last_write_wins.2.1 (List.replicate 64 0) 1 2 (List.length_replicate 64 0),
   C10_last_write_wins.2.2 (List.replicate 64 0) (List.replicate 32 1) (List.replicate 32 2)
     (List.length_replicate 64 0) (List.length_replicate 32 1) (List.length_replicate 32 2)⟩

end Pow5

namespace Pow5

set_option maxRecDepth 1000000 in
set_option maxHeartbeats 0 in
/-- Claim C3: get_work_par_217a of the all-zero 217-byte header is the
digest 6fe9eddc39bb4183c44853c41876801be94a138ea9adea89f40a08442d2f79b8. -/
theorem C3_work_par_zero_header :
    get_work_par_217a (List.replicate 217 0) =
      .ok [111, 233, 237, 220, 57, 187, 65, 131, 196, 72, 83, 196, 24, 118, 128, 27,
           233, 74, 19, 142, 169, 173, 234, 137, 244, 10, 8, 68, 45, 47, 121, 184] := rfl

end Pow5

namespace Pow5

set_option maxRecDepth 1000000 in
set_option maxHeartbeats 0 in
/-- Claim C2 (amended): for the 217-byte header consisting entirely of
ZERO bytes, inserting nonce 376413 and then running
elementary_iteration_217a yields exactly the digest
00000004f0ac89d75f135f184abbf0a82fad1e07fb4a29adb159648d70adf474; this
is the vector recorded for the zero header in the source tests (the
all-0x11 header is paired there with nonce 424378, not 376413). -/
theorem C2_zero_header_nonce_376413 :
    Except.bind (insert_nonce_217a (List.replicate 217 0) 376413) elementary_iteration_217a =
      .ok [0, 0, 0, 4, 240, 172, 137, 215, 95, 19, 95, 24, 74, 187, 240, 168,
           47, 173, 30, 7, 251, 74, 41, 173, 177, 89, 100, 141, 112, 173, 244, 116] := rfl

set_option maxRecDepth 1000000 in
set_option maxHeartbeats 0 in
/-- Counterexample for C2 as stated: for the 217-byte header consisting
entirely of 0x11 bytes, inserting nonce 376413 and then running
elementary_iteration_217a yields the digest
c008375aac689a3223dd1a7409c4f83cffcc43bcf091671a6144b86a9f128964,
which differs from the digest the claim states. -/
theorem C2_counterexample :
    Except.bind (insert_nonce_217a (List.replicate 217 17) 376413) elementary_iteration_217a =
      .ok [192, 8, 55, 90, 172, 104, 154, 50, 35, 221, 26, 116, 9, 196, 248, 60,
           255, 204, 67, 188, 240, 145, 103, 26, 97, 68, 184, 106, 159, 18, 137, 100] ∧
    ([192, 8, 55, 90, 172, 104, 154, 50, 35, 221, 26, 116, 9, 196, 248, 60,
      255, 204, 67, 188, 240, 145, 103, 26, 97, 68, 184, 106, 159, 18, 137, 100] : List Nat) ≠
    [0, 0, 0, 4, 240, 172, 137, 215, 95, 19, 95, 24, 74, 187, 240, 168,
     47, 173, 30, 7, 251, 74, 41, 173, 177, 89, 100, 141, 112, 173, 244, 116] :=
  ⟨rfl, by decide⟩

set_option maxRecDepth 1000000 in
set_option maxHeartbeats 0 in
/-- Claim C4: elementary_iteration_217a of the all-zero 217-byte header
is the digest
c88f591bfa80126e9a14d76d473ca8ae7ac578ed1eac0150fcbc06742f4f7d6f, and
in general on a 217-byte header it equals the double hash of the header
with its work-par digest spliced into bytes 185..217. -/
theorem C4_elementary_zero_header :
    (elementary_iteration_217a (List.replicate 217 0) =
      .ok [200, 143, 89, 27, 250, 128, 18, 110, 154, 20, 215, 109, 71, 60, 168, 174,
           122, 197, 120, 237, 30, 172, 1, 80, 252, 188, 6, 116, 47, 79, 125, 111]) ∧
    ∀ h : List Nat, h.length = 217 → ∃ wp, get_work_par_217a h = .ok wp ∧
      elementary_iteration_217a h =
        .ok (blake3_reference_hash (blake3_reference_hash (copyFromSlice h 185 wp))) := by
  constructor
  · exact rfl
  · intro h hl
    exact ⟨_, get_work_par_217a_ok h hl, elementary_iteration_217a_ok h hl⟩

/-- Witness for C4 at the all-zero header. -/
theorem C4_witness :
    ∃ wp, get_work_par_217a (List.replicate 217 0) = .ok wp ∧
      elementary_iteration_217a (List.replicate 217 0) =
        .ok (blake3_reference_hash (blake3_reference_hash
          (copyFromSlice (List.replicate 217 0) 185 wp))) :=
  C4_elementary_zero_header.2 (List.replicate 217 0) (List.length_replicate 217 0)

end Pow5
